import Mathlib

/-!
Shallow embedding of the bad-line detection and repair engine of
`trz_py_utils` (modules `file.py` and `s3.py`).

Modelling conventions:
* A decoded Python text line is a `List Char`; a raw byte line is also a
  `List Char` whose code points are the byte values (0..255).  Lines fed to
  `BadFileReader` are the logical lines produced by Python file iteration
  followed by `.strip("\n")`, so they carry no terminator; lines fed to
  `S3Cleaner.rewrite` keep their terminators (`keepends=True`).
* A line that fails to decode under the configured encoding is `none` in a
  `List (Option (List Char))` input.
* The rejection "regexes" built by the source are a fixed, closed family of
  patterns (`re_bad = "|".join(...)`): the non-ASCII character class
  `[^\x00-\x7F]`, plain-substring NULL sentinels, and the two column-count
  guards `^(?:[^d]*d){n,}[^d]*$` (matches iff the line holds at least `n`
  delimiters) and `^(?:[^d]*d){0,k}[^d]*$` (matches iff it holds at most `k`
  delimiters).  Alternation matches iff some alternative matches, so the
  joined regex is embedded as a list of structured patterns tested with `any`.
-/

namespace TrzPyUtils

/-- The structured rejection patterns the source builds
(`file.py set_regex` default, `s3.py _null_handler` / `_column_count_enforcer`). -/
inductive Pat
  /-- the regex `[^\x00-\x7F]`: any character with code point above 127 -/
  | nonAscii : Pat
  /-- a plain substring pattern such as `NULL~` or `~NULL` -/
  | containsSeq (s : List Char) : Pat
  /-- the guard regex matching lines with at least `n` delimiters -/
  | atLeastDelims (n : Nat) : Pat
  /-- the guard regex matching lines with at most `n` delimiters -/
  | atMostDelims (n : Nat) : Pat
deriving DecidableEq, Repr

/-- Python `len(line.split(d))` for a single-character separator `d`:
one more than the number of delimiter occurrences. -/
def countCols (d : Char) (l : List Char) : Nat := l.count d + 1

/-- Python `pat in s` / unanchored `re` search for a plain pattern:
substring containment. -/
def seqContains (s l : List Char) : Bool := decide (s <:+: l)

/-- Substring-at-the-front test, used to embed Python scanning loops. -/
def startsWithSeq (s l : List Char) : Bool := decide (s <+: l)

/-- Whether one structured pattern matches a line (given the delimiter `d`
baked into the guard patterns). -/
def Pat.matchesLine (d : Char) : Pat → List Char → Bool
  | .nonAscii, l => l.any (fun c => 128 ≤ c.toNat)
  | .containsSeq s, l => seqContains s l
  | .atLeastDelims n, l => n ≤ l.count d
  | .atMostDelims n, l => l.count d ≤ n

/-- Python `re.finditer(re_bad, line)` is non-empty iff some alternative of the
joined pattern list matches. -/
def matchesPolicy (pats : List Pat) (d : Char) (l : List Char) : Bool :=
  pats.any (fun p => p.matchesLine d l)

/-- Recursion core of Python `str.replace(pat, rep)`: replace every
non-overlapping occurrence of `pat`, scanning left to right.  The scan
consumes at least one character per step, so a fuel of `l.length` makes the
fuel-exhausted branch unreachable; fuel keeps the recursion structural. -/
def replaceAllF (pat rep : List Char) : Nat → List Char → List Char
  | _, [] => []
  | 0, l => l
  | fuel + 1, c :: rest =>
    if pat ≠ [] ∧ startsWithSeq pat (c :: rest) = true then
      rep ++ replaceAllF pat rep fuel ((c :: rest).drop pat.length)
    else
      c :: replaceAllF pat rep fuel rest

/-- Python `str.replace(pat, rep)`.  (The source only ever calls this with
the non-empty sentinel `f"{delim}NULL{delim}"`, so the empty-pattern case is
irrelevant.) -/
def replaceAll (pat rep l : List Char) : List Char :=
  replaceAllF pat rep l.length l

/-- Sentinel `f"{delim}NULL{delim}"` that `BadFileReader.__init__` builds with
the default `replace="NULL"`. -/
def sentinelOf (d : Char) : List Char := d :: 'N' :: 'U' :: 'L' :: 'L' :: [d]

/-- Replacement `f"{delim}{replace_with}{delim}"` with the default `replace_with=""`. -/
def replSeqOf (d : Char) : List Char := [d, d]

/-- The NULL substitution step at the end of `BadFileReader._parse_line`:
`if self.replace in line: line = line.replace(self.replace, self.replace_with)`. -/
def nullSub (d : Char) (l : List Char) : List Char :=
  if seqContains (sentinelOf d) l then replaceAll (sentinelOf d) (replSeqOf d) l
  else l

/-- What `BadFileReader._parse_line` does with one line: accept it (possibly
after NULL substitution), repair it (append one delimiter, then substitute),
or reject it (append to `bad_lines`, return `None`). -/
inductive Outcome
  | accepted (out : List Char)
  | repaired (out : List Char)
  | rejected
deriving DecidableEq, Repr

/-- Configuration a `BadFileReader` holds while parsing: `self.ncols`
(header-derived), `self.delim`, and the reject patterns of `self.re_bad`. -/
structure FileCfg where
  ncols : Nat
  delim : Char
  pats : List Pat
deriving DecidableEq, Repr

/-- Embeds `BadFileReader._parse_line` (file.py lines 304-331).  The repair branch
fires exactly when the line matched `re_bad` and `count_cols() == ncols - 1`
(the comparison is on Python integers, hence over `ℤ`). -/
def parseLineF (cfg : FileCfg) (line : List Char) : Outcome :=
  if matchesPolicy cfg.pats cfg.delim line then
    if (countCols cfg.delim line : ℤ) = (cfg.ncols : ℤ) - 1 then
      .repaired (nullSub cfg.delim (line ++ [cfg.delim]))
    else
      .rejected
  else
    .accepted (nullSub cfg.delim line)

/-- The good-line text an outcome contributes to `self.lines` (`None` for a
rejected line). -/
def goodOf : Outcome → Option (List Char)
  | .accepted out => some out
  | .repaired out => some out
  | .rejected => none

/-- What `BadFileReader.read` accumulates while `_yield_lines` walks the
whole file: the good lines in order, the number of entries added to
`bad_lines`, and how many lines took the append-a-delimiter repair branch. -/
structure ReadResult where
  lines : List (List Char)
  numBad : Nat
  numRepaired : Nat
deriving DecidableEq, Repr

/-- The `_yield_lines` / `read` loop (file.py lines 278-302, 429-437): every
line of the file (the header included) is handed to `_parse_line`; a
`UnicodeDecodeError` (a `none` input entry) appends to `bad_lines` and the
loop continues. -/
def readLines (cfg : FileCfg) : List (Option (List Char)) → ReadResult
  | [] => ⟨[], 0, 0⟩
  | none :: rest =>
    let r := readLines cfg rest
    ⟨r.lines, r.numBad + 1, r.numRepaired⟩
  | some l :: rest =>
    let r := readLines cfg rest
    match parseLineF cfg l with
    | .accepted out => ⟨out :: r.lines, r.numBad, r.numRepaired⟩
    | .repaired out => ⟨out :: r.lines, r.numBad, r.numRepaired + 1⟩
    | .rejected => ⟨r.lines, r.numBad + 1, r.numRepaired⟩

/-- Python `str.isspace` members stripped by `str.strip()` (ASCII range). -/
def isPySpace (c : Char) : Bool :=
  c = ' ' || c = '\t' || c = '\n' || c = '\x0b' || c = '\x0c' || c = '\r'

/-- Python `row.strip()` as `BadFileReader._headers` applies to the first
line before splitting it on the delimiter. -/
def pyStrip (l : List Char) : List Char :=
  ((l.dropWhile isPySpace).reverse.dropWhile isPySpace).reverse

/-- Embeds `self.ncols = len(self.headers)` where the headers come from splitting
the stripped first line; `readline()` on an empty file returns `""`, whose
split is `[""]`, hence 1. -/
def headerCols (d : Char) (input : List (Option (List Char))) : Nat :=
  match input with
  | some h :: _ => countCols d (pyStrip h)
  | _ => 1

/-- The counters `BadFileReader` exposes after `read()`: `self.lines`,
`self.num_total` (counted in `__init__`), `self.num_good = len(self.lines)`,
`self.num_bad = len(self.bad_lines)`, plus the repair tally. -/
structure RunResult where
  lines : List (List Char)
  numTotal : Nat
  numGood : Nat
  numBad : Nat
  numRepaired : Nat
deriving DecidableEq, Repr

/-- One whole `BadFileReader(path, delimiter=d)` construction followed by
`read()`.  A header line that cannot be decoded makes the constructor itself
raise, hence `none`. -/
def bfrRun (d : Char) (pats : List Pat) (input : List (Option (List Char))) :
    Option RunResult :=
  match input with
  | none :: _ => none
  | _ =>
    let cfg : FileCfg := ⟨headerCols d input, d, pats⟩
    let r := readLines cfg input
    some ⟨r.lines, input.length, r.lines.length, r.numBad, r.numRepaired⟩

/-- The default rejection policy `set_regex` installs:
`reject=[r"[^\x00-\x7F]"]`. -/
def defaultPats : List Pat := [Pat.nonAscii]

/-- The Python exception `BadFileReader.write` can raise while computing
statistics. -/
inductive PyErr
  | zeroDivision
deriving DecidableEq, Repr

/-- Python truthiness of the `lines` argument of `write`
(`len(lines) if lines else self.num_good`): an empty list is falsy. -/
def truthyLines : Option (List (List Char)) → Option (List (List Char))
  | some (l :: ls) => some (l :: ls)
  | _ => none

/-- Embeds `BadFileReader.write` (file.py lines 454-508): computes
`percent_good = 100*n_lines/n_total` before any guard (so `n_total == 0`
raises `ZeroDivisionError`), honours `dry_run`, and otherwise writes the
chosen lines.  Returns the percentage and the lines written. -/
def bfrWrite (r : RunResult) (linesArg : Option (List (List Char)))
    (dryRun : Bool) : Except PyErr (ℚ × List (List Char)) :=
  let nLines : Nat :=
    match truthyLines linesArg with
    | some ls => ls.length
    | none => r.numGood
  let outLines : List (List Char) :=
    match truthyLines linesArg with
    | some ls => ls
    | none => r.lines
  if r.numTotal = 0 then .error .zeroDivision
  else
    let pct : ℚ := (100 * nLines : ℚ) / (r.numTotal : ℚ)
    if dryRun then .ok (pct, [])
    else .ok (pct, outLines)

/-!  ### The `S3Cleaner` side (s3.py lines 640-794)  -/

/-- The pattern list `S3Cleaner.__init__` accumulates into `self._regexes`:
the caller-supplied base (default `[r"[^\x00-\x7F]"]`), then `_null_handler`
appends `NULL{d}` and `{d}NULL` when `null_handler == "drop"`, then
`_column_count_enforcer` appends the two guards built from
`n = len(self.headers)`.  (`fmt.unique` only deduplicates, which cannot
change whether some pattern matches.) -/
def s3Regexes (base : List Pat) (nullDrop : Bool) (enforce : Bool)
    (n : Nat) (d : Char) : List Pat :=
  (base ++
    (if nullDrop then
      [Pat.containsSeq ('N' :: 'U' :: 'L' :: 'L' :: [d]),
       Pat.containsSeq (d :: 'N' :: 'U' :: 'L' :: 'L' :: [])]
    else [])) ++
    (if enforce then [Pat.atLeastDelims n, Pat.atMostDelims (n - 2)] else [])

/-- Configuration of `S3Cleaner`: delimiter, compiled reject patterns, and
whether `null_handler == "replace"`. -/
structure S3Cfg where
  delim : Char
  pats : List Pat
  nullReplace : Bool
deriving DecidableEq, Repr

/-- Mutable state of an `S3Cleaner` during `rewrite`: the pending buffer
`self._text`, the size of `self.bad_lines`, the current content of the
destination object (`none` before any write), and the line counter
`self._i`. -/
structure S3State where
  text : List Char
  numBadLines : Nat
  dest : Option (List Char)
  i : Nat
deriving DecidableEq, Repr

/-- Recursion core of `re.sub(b"NULL~|~NULL", b"~", text)` from
`_replace_null`: scan left to right; at each position try the alternative
`NULL{d}` first, then `{d}NULL`; a match is replaced by one delimiter and
scanning resumes after it.  Fuel as in `replaceAllF`. -/
def subNullS3F (d : Char) : Nat → List Char → List Char
  | _, [] => []
  | 0, l => l
  | fuel + 1, c :: rest =>
    if startsWithSeq ('N' :: 'U' :: 'L' :: 'L' :: [d]) (c :: rest) then
      d :: subNullS3F d fuel ((c :: rest).drop 5)
    else if startsWithSeq (d :: 'N' :: 'U' :: 'L' :: 'L' :: []) (c :: rest) then
      d :: subNullS3F d fuel ((c :: rest).drop 5)
    else
      c :: subNullS3F d fuel rest

/-- Embeds `re.sub(b"NULL~|~NULL", b"~", text)`. -/
def subNullS3 (d : Char) (l : List Char) : List Char :=
  subNullS3F d l.length l

/-- Embeds `S3Cleaner._replace_null`: the substitution only runs in replace mode. -/
def s3ReplaceNull (cfg : S3Cfg) (t : List Char) : List Char :=
  if cfg.nullReplace then subNullS3 cfg.delim t else t

/-- Embeds `S3Cleaner._write` (s3.py lines 720-726): opens the destination with
`s3fs.open(..., "wb")` — which replaces the object wholesale rather than
appending — writes the substituted buffer and clears it. -/
def s3Write (cfg : S3Cfg) (st : S3State) : S3State :=
  { st with dest := some (s3ReplaceNull cfg st.text), text := [] }

/-- Embeds `S3Cleaner._parse_line` (s3.py lines 728-741) under the default
`encoding="ascii"`: a byte at or above 128 makes `line.decode` raise
(reject with no text), else a regex match rejects, else the raw line is
appended to the buffer. -/
def s3ParseLine (cfg : S3Cfg) (st : S3State) (line : List Char) : S3State :=
  if line.any (fun c => 128 ≤ c.toNat) then
    { st with numBadLines := st.numBadLines + 1 }
  else if matchesPolicy cfg.pats cfg.delim line then
    { st with numBadLines := st.numBadLines + 1 }
  else
    { st with text := st.text ++ line }

/-- The loop body of `S3Cleaner.rewrite` (s3.py lines 780-791): bump `_i`,
parse, flush whenever `_i % write_chunk_b == 0`, and flush the non-empty
remainder after the loop. -/
def s3RewriteLoop (cfg : S3Cfg) (chunkB : Nat) (st : S3State) :
    List (List Char) → S3State
  | [] => if st.text = [] then st else s3Write cfg st
  | l :: rest =>
    let st1 := s3ParseLine cfg { st with i := st.i + 1 } l
    let st2 := if st1.i % chunkB = 0 then s3Write cfg st1 else st1
    s3RewriteLoop cfg chunkB st2 rest

/-- A full `rewrite` call.  `_set_headers` already consumed one line of a
separate stream and set `_i = 1`; the loop then re-reads the object from its
first byte, so `objLines` is every line of the object (header included),
with terminators kept (`keepends=True`). -/
def s3Rewrite (cfg : S3Cfg) (chunkB : Nat) (objLines : List (List Char)) :
    S3State :=
  s3RewriteLoop cfg chunkB ⟨[], 0, none, 1⟩ objLines

/-!  ### `BadLine` and its caret rendering (file.py lines 69-151)  -/

/-- A `BadLine` record as `__init__` leaves it.  `line`, `line_no` and
`re_matches` all default to `None`; a regex match is embedded as its
`span()` pair, and `patSrc` carries the pattern text every match exposes
through `m.re.pattern` (all matches come from the one compiled `re_bad`). -/
structure BadLineM where
  line : Option (List Char)
  lineNo : Option Nat
  reMatches : Option (List (Nat × Nat))
  patSrc : List Char
deriving DecidableEq, Repr

/-- Preface `f"line {line_no}: "`; a missing line number prints as `None`. -/
def prefaceOf (lineNo : Option Nat) : List Char :=
  "line ".toList ++
    (match lineNo with
     | some n => (toString n).toList
     | none => "None".toList) ++ ": ".toList

/-- Python list slice assignment `lst[a:b] = xs` for non-negative `a ≤ b`:
both indices are clipped to `[0, len(lst)]`, the clipped range is removed and
`xs` is spliced in (so an out-of-range slice appends at the end). -/
def sliceAssign (l : List Char) (a b : Nat) (xs : List Char) : List Char :=
  l.take (min a l.length) ++ xs ++ l.drop (min (max b (min a l.length)) l.length)

/-- The caret-building loop of `caret_under_matches`: starting from
`[' '] * len(self.line)`, each match span writes `['^'] * (end - start)`
at `caret_line[start+pl : end+pl]`. -/
def caretFold (pl : Nat) (ms : List (Nat × Nat)) (init : List Char) :
    List Char :=
  ms.foldl
    (fun acc se =>
      sliceAssign acc (se.1 + pl) (se.2 + pl) (List.replicate (se.2 - se.1) '^'))
    init

/-- Trailing display line naming the pattern, quoted with code point 39. -/
def patternLineOf (p : List Char) : List Char :=
  " (re pattern ".toList ++ [Char.ofNat 39] ++ p ++ [Char.ofNat 39, ')']

/-- The Python exceptions `caret_under_matches` can raise. -/
inductive CaretErr
  /-- Python `len(None)` when the record has no line text: `TypeError` -/
  | typeErrorLineNone
  /-- Python iteration over `None` when the record has no matches: `TypeError` -/
  | typeErrorMatchesNone
  /-- zero matches leave the loop variable `m` unbound, so the final
  `m.re.pattern` raises `UnboundLocalError` -/
  | nameErrorNoMatch
deriving DecidableEq, Repr

/-- Embeds `BadLine.caret_under_matches` (file.py lines 123-148): build the caret
buffer from the line length, overwrite it per match span shifted by the
preface length, and close with the pattern line taken from the last match. -/
def caretUnderMatches (bl : BadLineM) : Except CaretErr (List (List Char)) :=
  match bl.line with
  | none => .error .typeErrorLineNone
  | some l =>
    match bl.reMatches with
    | none => .error .typeErrorMatchesNone
    | some [] => .error .nameErrorNoMatch
    | some (m :: ms) =>
      let preface := prefaceOf bl.lineNo
      let caret := caretFold preface.length (m :: ms) (List.replicate l.length ' ')
      .ok [preface ++ l, caret, patternLineOf bl.patSrc]

/-- Embeds `BadLine.print`, which logs exactly the lines `caret_under_matches` returns, so
it raises in the same cases. -/
def badLinePrint (bl : BadLineM) : Except CaretErr Unit :=
  (caretUnderMatches bl).map (fun _ => ())

/-- The record `_yield_lines` builds for a `UnicodeDecodeError`
(`BadLine(file, e)`): no line text, no matches, no line number. -/
def mkDecodeErrorBadLine (patSrc : List Char) : BadLineM :=
  ⟨none, none, none, patSrc⟩

/-- The spans `re.finditer(r"[^\x00-\x7F]", line)` reports: one single-width
span per character above 127, in increasing position order. -/
def nonAsciiSpans (l : List Char) : List (Nat × Nat) :=
  (List.range l.length).filterMap
    (fun i => if 128 ≤ (l.getD i ' ').toNat then some (i, i + 1) else none)

/-!  ### Helper lemmas  -/

theorem replaceAllF_count (a : Char) (pat rep : List Char)
    (hc : pat.count a = rep.count a) :
    ∀ (fuel : Nat) (l : List Char),
      (replaceAllF pat rep fuel l).count a = l.count a := by
  intro fuel
  induction fuel with
  | zero => intro l; cases l <;> rfl
  | succ fuel ih =>
    intro l
    cases l with
    | nil => rfl
    | cons c rest =>
      rw [replaceAllF]
      split
      · rename_i h
        obtain ⟨hne, hpre⟩ := h
        obtain ⟨t, ht⟩ := of_decide_eq_true hpre
        have hdrop : (c :: rest).drop pat.length = t := by
          rw [← ht, List.drop_left]
        rw [List.count_append, ih, hdrop]
        conv_rhs => rw [← ht]
        rw [List.count_append, hc]
      · simp only [List.count_cons, ih]

theorem replaceAll_count (a : Char) (pat rep : List Char)
    (hc : pat.count a = rep.count a) :
    ∀ l : List Char, (replaceAll pat rep l).count a = l.count a :=
  fun l => replaceAllF_count a pat rep hc l.length l

theorem replaceAllF_mem (pat rep : List Char) :
    ∀ (fuel : Nat) (l : List Char),
      ∀ a ∈ replaceAllF pat rep fuel l, a ∈ l ∨ a ∈ rep := by
  intro fuel
  induction fuel with
  | zero =>
    intro l a ha
    cases l with
    | nil => simp [replaceAllF] at ha
    | cons c rest => exact Or.inl ha
  | succ fuel ih =>
    intro l a ha
    cases l with
    | nil => simp [replaceAllF] at ha
    | cons c rest =>
      rw [replaceAllF] at ha
      split at ha
      · rcases List.mem_append.mp ha with ha | ha
        · exact Or.inr ha
        · rcases ih _ a ha with ha' | ha'
          · exact Or.inl (List.mem_of_mem_drop ha')
          · exact Or.inr ha'
      · rcases List.mem_cons.mp ha with rfl | ha
        · exact Or.inl (List.mem_cons_self _ _)
        · rcases ih _ a ha with ha' | ha'
          · exact Or.inl (List.mem_cons_of_mem _ ha')
          · exact Or.inr ha'

theorem replaceAll_mem (pat rep : List Char) :
    ∀ l : List Char, ∀ a ∈ replaceAll pat rep l, a ∈ l ∨ a ∈ rep :=
  fun l => replaceAllF_mem pat rep l.length l

theorem sentinel_count_self (d : Char) (hN : d ≠ 'N') (hU : d ≠ 'U')
    (hL : d ≠ 'L') : (sentinelOf d).count d = (replSeqOf d).count d := by
  simp [sentinelOf, replSeqOf, List.count_cons, hN.symm, hU.symm, hL.symm]

theorem nullSub_count (d : Char) (hN : d ≠ 'N') (hU : d ≠ 'U') (hL : d ≠ 'L')
    (l : List Char) : (nullSub d l).count d = l.count d := by
  unfold nullSub
  split
  · exact replaceAll_count d _ _ (sentinel_count_self d hN hU hL) l
  · rfl

theorem nullSub_ascii (d : Char) (hd : d.toNat ≤ 127) (l : List Char)
    (hl : ∀ c ∈ l, c.toNat ≤ 127) : ∀ c ∈ nullSub d l, c.toNat ≤ 127 := by
  intro c hc
  unfold nullSub at hc
  split at hc
  · rcases replaceAll_mem _ _ l c hc with h | h
    · exact hl c h
    · simp only [replSeqOf, List.mem_cons, List.not_mem_nil, or_false] at h
      rcases h with rfl | rfl <;> exact hd
  · exact hl c hc

theorem matchesPolicy_default_eq_false_iff (d : Char) (l : List Char) :
    matchesPolicy defaultPats d l = false ↔ ∀ c ∈ l, c.toNat ≤ 127 := by
  rw [← Bool.not_eq_true]
  simp only [matchesPolicy, defaultPats, List.any_eq_true, List.mem_singleton]
  constructor
  · intro h c hc
    by_contra hgt
    exact h ⟨Pat.nonAscii, rfl, by
      simp only [Pat.matchesLine, List.any_eq_true, decide_eq_true_eq]
      exact ⟨c, hc, by omega⟩⟩
  · rintro h ⟨p, rfl, hp⟩
    simp only [Pat.matchesLine, List.any_eq_true, decide_eq_true_eq] at hp
    obtain ⟨c, hc, hge⟩ := hp
    have := h c hc
    omega

theorem readLines_lines_eq_filterMap (cfg : FileCfg) :
    ∀ input : List (Option (List Char)),
      (readLines cfg input).lines =
        input.filterMap (fun o => o.bind (fun l => goodOf (parseLineF cfg l))) := by
  intro input
  induction input with
  | nil => rfl
  | cons o rest ih =>
    cases o with
    | none => simp [readLines, ih]
    | some l =>
      rcases hp : parseLineF cfg l with out | out | _ <;>
        simp [readLines, hp, ih, goodOf]

theorem readLines_clean (cfg : FileCfg) :
    ∀ input : List (Option (List Char)),
      (∀ o ∈ input, ∃ l, o = some l ∧
        matchesPolicy cfg.pats cfg.delim l = false) →
      (readLines cfg input).lines.length = input.length ∧
        (readLines cfg input).numBad = 0 := by
  intro input
  induction input with
  | nil => intro _; exact ⟨rfl, rfl⟩
  | cons o rest ih =>
    intro h
    obtain ⟨l, rfl, hm⟩ := h o (List.mem_cons_self _ _)
    have hrest := ih (fun o ho => h o (List.mem_cons_of_mem _ ho))
    have hp : parseLineF cfg l = .accepted (nullSub cfg.delim l) := by
      unfold parseLineF
      rw [hm]
      simp
    simp [readLines, hp, hrest.1, hrest.2]

theorem readLines_no_repair_mem (cfg : FileCfg) :
    ∀ input : List (Option (List Char)),
      (readLines cfg input).numRepaired = 0 →
      ∀ out ∈ (readLines cfg input).lines,
        ∃ l, some l ∈ input ∧ matchesPolicy cfg.pats cfg.delim l = false ∧
          out = nullSub cfg.delim l := by
  intro input
  induction input with
  | nil => intro _ out hout; simp [readLines] at hout
  | cons o rest ih =>
    intro hrep out hout
    cases o with
    | none =>
      simp only [readLines] at hrep hout
      obtain ⟨l, hl, hm, he⟩ := ih hrep out hout
      exact ⟨l, List.mem_cons_of_mem _ hl, hm, he⟩
    | some l =>
      rcases hp : parseLineF cfg l with w | w | _
      · -- accepted: the guard of `parseLineF` must have been false
        have hm : matchesPolicy cfg.pats cfg.delim l = false := by
          by_contra hm'
          rw [Bool.not_eq_false] at hm'
          unfold parseLineF at hp
          rw [hm'] at hp
          simp only [if_true] at hp
          split at hp <;> simp at hp
        have hw : w = nullSub cfg.delim l := by
          unfold parseLineF at hp
          rw [hm] at hp
          simpa using hp.symm
        simp only [readLines, hp] at hrep hout
        rcases List.mem_cons.mp hout with rfl | hout'
        · exact ⟨l, List.mem_cons_self _ _, hm, hw⟩
        · obtain ⟨l', hl', hm', he'⟩ := ih hrep out hout'
          exact ⟨l', List.mem_cons_of_mem _ hl', hm', he'⟩
      · -- repaired: contradicts `numRepaired = 0`
        simp only [readLines, hp] at hrep
        omega
      · -- rejected
        simp only [readLines, hp] at hrep hout
        obtain ⟨l', hl', hm', he'⟩ := ih hrep out hout
        exact ⟨l', List.mem_cons_of_mem _ hl', hm', he'⟩

theorem bfrRun_nil (d : Char) (pats : List Pat) :
    bfrRun d pats [] = some ⟨[], 0, 0, 0, 0⟩ := rfl

theorem bfrRun_cons_some (d : Char) (pats : List Pat) (l : List Char)
    (rest : List (Option (List Char))) :
    bfrRun d pats (some l :: rest) =
      some ⟨(readLines ⟨countCols d (pyStrip l), d, pats⟩ (some l :: rest)).lines,
        rest.length + 1,
        (readLines ⟨countCols d (pyStrip l), d, pats⟩ (some l :: rest)).lines.length,
        (readLines ⟨countCols d (pyStrip l), d, pats⟩ (some l :: rest)).numBad,
        (readLines ⟨countCols d (pyStrip l), d, pats⟩ (some l :: rest)).numRepaired⟩ :=
  rfl

theorem bfrRun_all_clean (d : Char) (pats : List Pat)
    (input : List (Option (List Char)))
    (h : ∀ o ∈ input, ∃ l, o = some l ∧ matchesPolicy pats d l = false) :
    ∃ r, bfrRun d pats input = some r ∧
      r.numGood = r.numTotal ∧ r.numBad = 0 := by
  cases input with
  | nil => exact ⟨⟨[], 0, 0, 0, 0⟩, rfl, rfl, rfl⟩
  | cons o rest =>
    obtain ⟨l, rfl, hm⟩ := h o (List.mem_cons_self o rest)
    have hc := readLines_clean ⟨headerCols d (some l :: rest), d, pats⟩
      (some l :: rest) (by
        intro o' ho'
        obtain ⟨l', hl', hm'⟩ := h o' ho'
        exact ⟨l', hl', hm'⟩)
    exact ⟨_, rfl, hc.1, hc.2⟩

/-!  ### Claim C3  -/

/-- Claim C3 counterexample: with three expected columns and the default
rejection policy, the line `¿~x` matches the non-ASCII pattern and also
violates the column-count rule (it is one field short), yet
`BadFileReader._parse_line` repairs it to `¿~x~` and accepts it — it is not
rejected, so the claim that such a line is always rejected is false. -/
theorem c3_nonascii_one_short_repaired_cex :
    parseLineF ⟨3, '~', defaultPats⟩ "¿~x".toList =
      Outcome.repaired "¿~x~".toList ∧
    Outcome.repaired "¿~x~".toList ≠ Outcome.rejected := by
  exact ⟨by decide, by decide⟩

/-- Claim C3 (amended): a line matching the rejection regex is rejected iff
its column count differs from `expected_column_count - 1`; when it is exactly
one field short, `_parse_line` repairs and accepts it even though it also
matches the non-ASCII pattern — the repair branch never inspects which
pattern fired. -/
theorem c3_matching_line_reject_iff_not_one_short (cfg : FileCfg)
    (line : List Char) (hm : matchesPolicy cfg.pats cfg.delim line = true) :
    (parseLineF cfg line = .rejected ↔
      (countCols cfg.delim line : ℤ) ≠ (cfg.ncols : ℤ) - 1) ∧
    ((countCols cfg.delim line : ℤ) = (cfg.ncols : ℤ) - 1 →
      parseLineF cfg line =
        .repaired (nullSub cfg.delim (line ++ [cfg.delim]))) := by
  unfold parseLineF
  rw [hm]
  simp only [if_true]
  by_cases hc : (countCols cfg.delim line : ℤ) = (cfg.ncols : ℤ) - 1
  · rw [if_pos hc]
    exact ⟨by simp [hc], fun _ => rfl⟩
  · rw [if_neg hc]
    exact ⟨by simp [hc], fun h => absurd h hc⟩

/-- Witness for the amended C3 theorem at the concrete line `¿~x~w` (three
delimiter-separated fields plus one, i.e. not one field short) with four
expected columns given per configuration. -/
theorem c3_matching_line_reject_iff_not_one_short_witness :
    matchesPolicy defaultPats '~' "¿~x".toList = true ∧
    (parseLineF ⟨4, '~', defaultPats⟩ "¿~x".toList = .rejected ↔
      (countCols '~' "¿~x".toList : ℤ) ≠ ((4 : Nat) : ℤ) - 1) :=
  ⟨by decide,
    (c3_matching_line_reject_iff_not_one_short ⟨4, '~', defaultPats⟩
      "¿~x".toList (by decide)).1⟩

/-!  ### Claim C4  -/

/-- Claim C4 counterexample: a source whose header (line 1) contains a
non-ASCII character.  `BadFileReader.read` classifies the header like any
other line and rejects it: the output has no lines and `num_bad = 1`, so the
header is not written through unmodified and the claim is false.  (This is
exactly the behaviour of the `caret_under_matches` doctest, where the
single-line file `09BB¿~NY~1G` produces `num_bad == 1`.) -/
theorem c4_header_classified_cex :
    bfrRun '~' defaultPats [some "¿~x~y".toList] =
      some ⟨[], 1, 0, 1, 0⟩ ∧
    ([] : List (List Char)) ≠ ["¿~x~y".toList] := by
  exact ⟨by decide, by decide⟩

/-- Claim C4 (amended): the header line is counted in `num_total` and is
submitted to classification exactly like every subsequent line — the output
lines are the uniform `filterMap` of `_parse_line` over all input lines, the
header in first position; the header is written through only when it passes
(and even undergoes NULL substitution), not unconditionally. -/
theorem c4_header_uniform_classification (d : Char) (pats : List Pat)
    (hdr : List Char) (rest : List (Option (List Char))) :
    (bfrRun d pats (some hdr :: rest)).map
        (fun r => (r.numTotal, r.lines)) =
      some (rest.length + 1,
        (some hdr :: rest).filterMap
          (fun o => o.bind (fun l =>
            goodOf (parseLineF ⟨countCols d (pyStrip hdr), d, pats⟩ l)))) := by
  have hl := readLines_lines_eq_filterMap
    ⟨countCols d (pyStrip hdr), d, pats⟩ (some hdr :: rest)
  simp only [bfrRun, headerCols, Option.map_some', hl, List.length_cons]

/-!  ### Claim C5  -/

/-- Claim C5 counterexample: a two-line input (header plus one data line)
where every line decodes and nothing matches any rejection pattern.  The run
yields `num_good = 2 = num_total` and `num_bad = 0`: the header is itself
classified and accepted, so `accepted_count = total_lines_seen`, not
`total_lines_seen - 1` as claimed. -/
theorem c5_clean_input_counts_cex :
    bfrRun '~' defaultPats [some "a~b".toList, some "c~d".toList] =
      some ⟨["a~b".toList, "c~d".toList], 2, 2, 0, 0⟩ ∧
    ¬((2 : Nat) = 2 - 1) := by
  exact ⟨by decide, by decide⟩

/-- Claim C5 (amended): for every input in which every line decodes and no
line matches any rejection pattern, the run accepts every line including the
header: `num_good = num_total` and `num_bad = 0`. -/
theorem c5_clean_input_accept_all (d : Char) (pats : List Pat)
    (input : List (Option (List Char)))
    (h : ∀ o ∈ input, ∃ l, o = some l ∧ matchesPolicy pats d l = false) :
    ∃ r, bfrRun d pats input = some r ∧
      r.numGood = r.numTotal ∧ r.numBad = 0 :=
  bfrRun_all_clean d pats input h

/-- Witness for the amended C5 theorem: the single clean line `a~b`
discharges the decode and no-match hypotheses, and the run accepts it
(header included), with zero rejects. -/
theorem c5_clean_input_accept_all_witness :
    ∃ r, bfrRun '~' defaultPats [some "a~b".toList] = some r ∧
      r.numGood = r.numTotal ∧ r.numBad = 0 :=
  c5_clean_input_accept_all '~' defaultPats [some "a~b".toList] (by
    intro o ho
    rw [List.mem_singleton] at ho
    subst ho
    exact ⟨"a~b".toList, rfl, by decide⟩)

/-!  ### Claim C1  -/

/-- Claim C1 counterexample: the `S3Cleaner` classifier on a line whose
delimiter count is exactly `expected_column_count - 2` (here `a~b` with a
three-column header: one delimiter, one missing trailing field) and which
triggers no other pattern (pure ASCII, no NULL sentinel).  The lower
column-count guard is the only match, and `_parse_line` rejects the line —
`bad_lines` grows by one and nothing is appended to the output buffer.
`S3Cleaner` implements no repair, so the claim that the classifier returns
Repair and accepts a one-delimiter-appended line is false here. -/
theorem c1_s3_rejects_one_short_cex :
    s3ParseLine ⟨'~', s3Regexes defaultPats true true 3 '~', false⟩
        ⟨[], 0, none, 1⟩ "a~b\n".toList =
      ⟨[], 1, none, 1⟩ ∧
    ([] : List Char) ≠ "a~b~\n".toList := by
  exact ⟨by decide, by decide⟩

/-- Claim C1 (amended): the repair exists only in `BadFileReader._parse_line`
and fires only when the policy actually contains the lower column-count guard
(as `S3Cleaner` builds it): then a line with `ncols - 2` delimiters is
repaired — one delimiter is appended, the result is accepted, and its
delimiter count is `ncols - 1` (the NULL substitution preserves delimiter
count when the delimiter is not a letter of `NULL`).  `S3Cleaner` itself
rejects such lines. -/
theorem c1_repair_one_short_file_reader (ncols : Nat) (d : Char)
    (pats : List Pat) (line : List Char)
    (hg : Pat.atMostDelims (ncols - 2) ∈ pats)
    (hn : 2 ≤ ncols)
    (hcnt : line.count d = ncols - 2)
    (hN : d ≠ 'N') (hU : d ≠ 'U') (hL : d ≠ 'L') :
    parseLineF ⟨ncols, d, pats⟩ line =
      .repaired (nullSub d (line ++ [d])) ∧
    (nullSub d (line ++ [d])).count d = ncols - 1 := by
  have hm : matchesPolicy pats d line = true := by
    simp only [matchesPolicy, List.any_eq_true]
    exact ⟨_, hg, by simp [Pat.matchesLine, hcnt]⟩
  have hcc : (countCols d line : ℤ) = ((ncols : Nat) : ℤ) - 1 := by
    simp only [countCols, hcnt]
    omega
  constructor
  · unfold parseLineF
    dsimp only
    rw [hm]
    simp only [if_true]
    rw [if_pos hcc]
  · rw [nullSub_count d hN hU hL, List.count_append]
    simp only [List.count_singleton, beq_self_eq_true, if_true]
    omega

/-- Witness for the amended C1 theorem: three expected columns, delimiter
`~`, a policy holding the non-ASCII pattern and the lower guard, and the
one-field-short line `a~b`, which is repaired to `a~b~` with two
delimiters. -/
theorem c1_repair_one_short_file_reader_witness :
    Pat.atMostDelims 1 ∈ [Pat.nonAscii, Pat.atMostDelims 1] ∧
    parseLineF ⟨3, '~', [Pat.nonAscii, Pat.atMostDelims 1]⟩ "a~b".toList =
      .repaired (nullSub '~' ("a~b".toList ++ ['~'])) ∧
    (nullSub '~' ("a~b".toList ++ ['~'])).count '~' = 3 - 1 := by
  have h := c1_repair_one_short_file_reader 3 '~'
    [Pat.nonAscii, Pat.atMostDelims 1] "a~b".toList
    (by decide) (by decide) (by decide) (by decide) (by decide) (by decide)
  exact ⟨by decide, h.1, h.2⟩

/-!  ### Claim C2  -/

/-- Claim C2 (code bug): with a flush threshold of one line, three clean
lines are all accepted (`bad_lines` stays empty), yet after the run the
destination object holds only the final chunk `e~f\n`, not the
concatenation of all accepted lines.  Every `_write` opens the destination
with `s3fs.open(..., "wb")`, which replaces the object instead of appending,
and the flush cadence `_i % write_chunk_b` counts lines although the
docstring promises `write every n bytes`. -/
theorem c2_s3_rewrite_overwrites_chunks :
    (s3Rewrite ⟨'~', s3Regexes defaultPats true true 2 '~', false⟩ 1
        ["a~b\n".toList, "c~d\n".toList, "e~f\n".toList]) =
      ⟨[], 0, some "e~f\n".toList, 4⟩ ∧
    some "e~f\n".toList ≠
      some ("a~b\n".toList ++ "c~d\n".toList ++ "e~f\n".toList) := by
  exact ⟨by decide, by decide⟩

/-!  ### Claim C6  -/

/-- Claim C6 counterexample: the first run on header `A~B~C` and data line
`¿~x` repairs the bad line to `¿~x~` and accepts it (`num_bad = 0`,
one repair).  Running the same pipeline on the accepted output rejects
`¿~x~`: it still matches the non-ASCII pattern but now has the correct
column count, so the repair branch no longer applies — the second run
rejects 1 additional line, not 0. -/
theorem c6_second_run_rejects_repaired_cex :
    bfrRun '~' defaultPats [some "A~B~C".toList, some "¿~x".toList] =
      some ⟨["A~B~C".toList, "¿~x~".toList], 2, 2, 0, 1⟩ ∧
    bfrRun '~' defaultPats [some "A~B~C".toList, some "¿~x~".toList] =
      some ⟨["A~B~C".toList], 2, 1, 1, 0⟩ ∧
    (1 : Nat) ≠ 0 := by
  exact ⟨by decide, by decide, by decide⟩

/-- Claim C6 (amended): idempotence holds exactly for runs that performed no
repair — with the default rejection policy (the non-ASCII pattern) and an
ASCII delimiter, if the first run repaired nothing then every accepted line
is ASCII-only and a second run over the accepted output rejects 0 lines. -/
theorem c6_idempotent_when_no_repairs (d : Char) (hd : d.toNat ≤ 127)
    (input : List (Option (List Char))) (r : RunResult)
    (hrun : bfrRun d defaultPats input = some r)
    (hrep : r.numRepaired = 0) :
    ∃ r2, bfrRun d defaultPats (r.lines.map some) = some r2 ∧
      r2.numBad = 0 := by
  have hr : ∀ out ∈ r.lines, ∀ c ∈ out, c.toNat ≤ 127 := by
    cases input with
    | nil =>
      rw [bfrRun_nil] at hrun
      cases Option.some.inj hrun
      intro out hout
      exact absurd hout (List.not_mem_nil out)
    | cons o rest =>
      cases o with
      | none => simp [bfrRun] at hrun
      | some l =>
        rw [bfrRun_cons_some] at hrun
        cases Option.some.inj hrun
        intro out hout
        obtain ⟨l', _, hm', rfl⟩ :=
          readLines_no_repair_mem ⟨countCols d (pyStrip l), d, defaultPats⟩
            (some l :: rest) hrep out hout
        exact nullSub_ascii d hd l'
          ((matchesPolicy_default_eq_false_iff d l').mp hm')
  obtain ⟨r2, h2, _, hbad⟩ := bfrRun_all_clean d defaultPats
    (r.lines.map some) (by
      intro o ho
      obtain ⟨out, hout, rfl⟩ := List.mem_map.mp ho
      exact ⟨out, rfl,
        (matchesPolicy_default_eq_false_iff d out).mpr (hr out hout)⟩)
  exact ⟨r2, h2, hbad⟩

/-- Witness for the amended C6 theorem: a clean one-line run (no repairs)
whose accepted output passes a second run with zero rejects. -/
theorem c6_idempotent_when_no_repairs_witness :
    (('~' : Char).toNat ≤ 127) ∧
    ∃ r2, bfrRun '~' defaultPats
        ((⟨["a~b".toList], 1, 1, 0, 0⟩ : RunResult).lines.map some) = some r2 ∧
      r2.numBad = 0 :=
  ⟨by decide,
    c6_idempotent_when_no_repairs '~' (by decide) [some "a~b".toList]
      ⟨["a~b".toList], 1, 1, 0, 0⟩ (by decide) (by decide)⟩

/-!  ### Claim C7  -/

/-- Claim C7: in replace mode (`null_handler="replace"`), `_null_handler`
adds no NULL patterns to the rejection set (the built pattern list is the
base plus at most the column-count guards); `BadFileReader._parse_line`
substitutes the sentinel in accepted line content, mapping
`value1~NULL~value3` to `value1~~value3`; and a full `S3Cleaner.rewrite` in
replace mode over the Scenario B object writes
`HEADER1~HEADER2~HEADER3` followed by `value1~~value3` to the
destination, the substitution applied to the buffer before the write. -/
theorem c7_null_replace_substitution :
    (∀ (base : List Pat) (enforce : Bool) (n : Nat) (d : Char),
      s3Regexes base false enforce n d =
        base ++
          (if enforce then [Pat.atLeastDelims n, Pat.atMostDelims (n - 2)]
           else [])) ∧
    parseLineF ⟨3, '~', defaultPats⟩ "value1~NULL~value3".toList =
      Outcome.accepted "value1~~value3".toList ∧
    (s3Rewrite ⟨'~', s3Regexes defaultPats false true 3 '~', true⟩
        (1024 * 1024)
        ["HEADER1~HEADER2~HEADER3\n".toList,
         "value1~NULL~value3\n".toList]).dest =
      some "HEADER1~HEADER2~HEADER3\nvalue1~~value3\n".toList := by
  refine ⟨?_, by decide, by decide⟩
  intro base enforce n d
  simp [s3Regexes]

/-!  ### Claim C8  -/

/-- Claim C8 counterexample: a run over an empty source has
`num_total = 0`; `BadFileReader.write` computes
`100*n_lines/n_total` with no guard, so a `ZeroDivisionError` propagates to
the caller instead of the reportable error the claim promises. -/
theorem c8_zero_total_division_fault_cex :
    bfrWrite ⟨[], 0, 0, 0, 0⟩ none false = .error PyErr.zeroDivision := rfl

/-- Claim C8 (amended): for every run with `num_total ≠ 0`, the statistic is
`percent_good = 100 * num_good / num_total` (and the run writes the stored
lines unless `dry_run` suppresses output); when `num_total = 0` the division
itself raises `ZeroDivisionError` — no `EmptySourceError`-style guard
exists. -/
theorem c8_percent_formula (r : RunResult) (dryRun : Bool)
    (h : r.numTotal ≠ 0) :
    bfrWrite r none dryRun =
      .ok ((100 * r.numGood : ℚ) / (r.numTotal : ℚ),
        if dryRun then [] else r.lines) := by
  cases dryRun <;> simp [bfrWrite, truthyLines, h]

/-- Witness for the amended C8 theorem: one accepted line out of two total
gives fifty percent and writes the stored lines. -/
theorem c8_percent_formula_witness :
    ((⟨["a".toList], 2, 1, 1, 0⟩ : RunResult).numTotal ≠ 0) ∧
    bfrWrite ⟨["a".toList], 2, 1, 1, 0⟩ none false =
      .ok ((100 * ((1 : Nat) : ℚ)) / (((2 : Nat) : ℚ)), [["a".toList].head!]) := by
  refine ⟨by decide, ?_⟩
  have h := c8_percent_formula ⟨["a".toList], 2, 1, 1, 0⟩ false (by decide)
  simpa using h

/-!  ### Claims C9 and C10: caret rendering  -/

theorem sliceAssign_length (l : List Char) (a b : Nat) (xs : List Char)
    (hab : a ≤ b) (hb : b ≤ l.length) (hx : xs.length = b - a) :
    (sliceAssign l a b xs).length = l.length := by
  unfold sliceAssign
  simp only [List.length_append, List.length_take, List.length_drop]
  omega

theorem sliceAssign_getD (l : List Char) (a b : Nat) (xs : List Char)
    (hab : a ≤ b) (hb : b ≤ l.length) (hx : xs.length = b - a) (j : Nat) :
    (sliceAssign l a b xs).getD j ' ' =
      if a ≤ j ∧ j < b then xs.getD (j - a) ' ' else l.getD j ' ' := by
  have ha : a ≤ l.length := le_trans hab hb
  have hmin : min a l.length = a := Nat.min_eq_left ha
  have hmax : max b a ⊓ l.length = b := by
    rw [Nat.max_eq_left hab]
    exact Nat.min_eq_left hb
  have hlen0 : (l.take a).length = a := by
    simp only [List.length_take]
    omega
  have hlen1 : (l.take a ++ xs).length = b := by
    simp only [List.length_append, List.length_take]
    omega
  unfold sliceAssign
  rw [hmin, hmax]
  rcases Nat.lt_or_ge j a with h1 | h1
  · rw [if_neg (by omega)]
    rw [List.getD_eq_getElem?_getD, List.getD_eq_getElem?_getD]
    rw [List.getElem?_append, hlen1, if_pos (by omega)]
    rw [List.getElem?_append, hlen0, if_pos h1]
    rw [List.getElem?_take, if_pos h1]
  · rcases Nat.lt_or_ge j b with h2 | h2
    · rw [if_pos ⟨h1, h2⟩]
      rw [List.getD_eq_getElem?_getD, List.getD_eq_getElem?_getD]
      rw [List.getElem?_append, hlen1, if_pos h2]
      rw [List.getElem?_append, hlen0, if_neg (by omega)]
    · rw [if_neg (by omega)]
      rw [List.getD_eq_getElem?_getD, List.getD_eq_getElem?_getD]
      rw [List.getElem?_append, hlen1, if_neg (by omega)]
      rw [List.getElem?_drop, Nat.add_sub_cancel' h2]

theorem replicate_getD_lt (n j : Nat) (hj : j < n) :
    (List.replicate n '^').getD j ' ' = '^' := by
  rw [List.getD_eq_getElem?_getD, List.getElem?_replicate, if_pos hj]
  rfl

theorem replicate_getD_space (n j : Nat) :
    (List.replicate n ' ').getD j ' ' = ' ' := by
  rw [List.getD_eq_getElem?_getD, List.getElem?_replicate]
  split <;> rfl

theorem caretFold_spec (pl : Nat) :
    ∀ (ms : List (Nat × Nat)) (acc : List Char),
      (∀ se ∈ ms, se.1 ≤ se.2 ∧ se.2 + pl ≤ acc.length) →
      (caretFold pl ms acc).length = acc.length ∧
      ∀ j : Nat, (caretFold pl ms acc).getD j ' ' = '^' ↔
        (acc.getD j ' ' = '^' ∨
          ∃ se ∈ ms, se.1 + pl ≤ j ∧ j < se.2 + pl) := by
  intro ms
  induction ms with
  | nil =>
    intro acc _
    exact ⟨rfl, fun j => by simp [caretFold]⟩
  | cons se ms ih =>
    intro acc hfit
    obtain ⟨h1, h2⟩ := hfit se (List.mem_cons_self _ _)
    have hrep : (List.replicate (se.2 - se.1) '^').length =
        (se.2 + pl) - (se.1 + pl) := by
      simp only [List.length_replicate]
      omega
    have hlen := sliceAssign_length acc (se.1 + pl) (se.2 + pl) _
      (by omega) h2 hrep
    have hstep : caretFold pl (se :: ms) acc =
        caretFold pl ms
          (sliceAssign acc (se.1 + pl) (se.2 + pl)
            (List.replicate (se.2 - se.1) '^')) := rfl
    obtain ⟨hL, hG⟩ := ih
      (sliceAssign acc (se.1 + pl) (se.2 + pl)
        (List.replicate (se.2 - se.1) '^'))
      (by
        intro se' hse'
        rw [hlen]
        exact hfit se' (List.mem_cons_of_mem _ hse'))
    rw [hstep]
    refine ⟨by rw [hL, hlen], ?_⟩
    intro j
    rw [hG j]
    rw [sliceAssign_getD acc (se.1 + pl) (se.2 + pl) _ (by omega) h2 hrep j]
    by_cases hj : se.1 + pl ≤ j ∧ j < se.2 + pl
    · rw [if_pos hj]
      rw [replicate_getD_lt (se.2 - se.1) (j - (se.1 + pl)) (by omega)]
      constructor
      · intro _
        exact Or.inr ⟨se, List.mem_cons_self _ _, hj⟩
      · intro _
        exact Or.inl rfl
    · rw [if_neg hj]
      constructor
      · rintro (h | ⟨se', hm', hc'⟩)
        · exact Or.inl h
        · exact Or.inr ⟨se', List.mem_cons_of_mem _ hm', hc'⟩
      · rintro (h | ⟨se', hm', hc'⟩)
        · exact Or.inl h
        · rcases List.mem_cons.mp hm' with rfl | hm''
          · exact absurd hc' hj
          · exact Or.inr ⟨se', hm'', hc'⟩

/-- Claim C9 counterexample: the record the `caret_under_matches` doctest
builds (line `09BBÂ¿~NY~1G` as decoded under latin-1, matches at spans
`(4,5)` and `(5,6)` — exactly `finditer` of the non-ASCII pattern).  The
first display line has width 20, but the caret line is
`            ^^` of width 14: the caret buffer starts at the width of the
original text, not of the prefaced display line, so the equal-visual-width
part of the claim is false (the doctest output shows the same widths). -/
theorem c9_caret_width_cex :
    caretUnderMatches ⟨some "09BBÂ¿~NY~1G".toList, some 1,
        some [(4, 5), (5, 6)], "[^\\x00-\\x7F]".toList⟩ =
      .ok ["line 1: 09BBÂ¿~NY~1G".toList,
        "            ^^".toList,
        patternLineOf "[^\\x00-\\x7F]".toList] ∧
    ("            ^^".toList).length ≠ ("line 1: 09BBÂ¿~NY~1G".toList).length ∧
    nonAsciiSpans "09BBÂ¿~NY~1G".toList = [(4, 5), (5, 6)] := by
  refine ⟨?_, by decide, by decide⟩
  rfl

/-- Claim C9 (amended): `render` returns, in order, `line {n}: {text}`, the
caret line, and a final line naming the pattern.  The caret buffer is
initialised to the width of the original text (not of the first display
line) and each match span writes carets at the span shifted right by the
preface length through Python slice assignment; whenever every shifted span
fits inside the original text width, the caret line has exactly the width of
the original text and bears `^` precisely at the shifted spans, so its
visual width is in general shorter than the first display line. -/
theorem c9_caret_render_characterization (bl : BadLineM) (l : List Char)
    (m : Nat × Nat) (ms : List (Nat × Nat))
    (hline : bl.line = some l) (hms : bl.reMatches = some (m :: ms))
    (hfit : ∀ se ∈ m :: ms, se.1 ≤ se.2 ∧
      se.2 + (prefaceOf bl.lineNo).length ≤ l.length) :
    ∃ caret,
      caretUnderMatches bl =
        .ok [prefaceOf bl.lineNo ++ l, caret, patternLineOf bl.patSrc] ∧
      caret.length = l.length ∧
      ∀ j : Nat, caret.getD j ' ' = '^' ↔
        ∃ se ∈ m :: ms, se.1 + (prefaceOf bl.lineNo).length ≤ j ∧
          j < se.2 + (prefaceOf bl.lineNo).length := by
  obtain ⟨hL, hG⟩ := caretFold_spec (prefaceOf bl.lineNo).length (m :: ms)
    (List.replicate l.length ' ')
    (by simpa only [List.length_replicate] using hfit)
  refine ⟨caretFold (prefaceOf bl.lineNo).length (m :: ms)
      (List.replicate l.length ' '), ?_, ?_, ?_⟩
  · simp only [caretUnderMatches, hline, hms]
  · rw [hL, List.length_replicate]
  · intro j
    rw [hG j, replicate_getD_space]
    simp only [false_or, show (' ' = '^') = False from by simp]

/-- Witness for the amended C9 theorem: line number 1 (preface width 8),
a ten-character line and the single span `(1,2)`, which fits since
`2 + 8 ≤ 10`; the caret line has width 10 with a caret exactly at column
9. -/
theorem c9_caret_render_characterization_witness :
    ∃ caret,
      caretUnderMatches
          ⟨some "0123456789".toList, some 1, some [(1, 2)], "p".toList⟩ =
        .ok [prefaceOf (some 1) ++ "0123456789".toList, caret,
          patternLineOf "p".toList] ∧
      caret.length = ("0123456789".toList).length ∧
      ∀ j : Nat, caret.getD j ' ' = '^' ↔
        ∃ se ∈ [((1 : Nat), (2 : Nat))],
          se.1 + (prefaceOf (some 1)).length ≤ j ∧
            j < se.2 + (prefaceOf (some 1)).length :=
  c9_caret_render_characterization
    ⟨some "0123456789".toList, some 1, some [(1, 2)], "p".toList⟩
    "0123456789".toList (1, 2) [] rfl rfl (by decide)

/-- Claim C10: `caret_under_matches` (and `print`, which logs its output)
succeeds exactly on records carrying both a line text and at least one
regex match; a record built without line text or without matches — as the
decode-error path builds it — raises (`TypeError` on `len(None)` or on
iterating `None`, `UnboundLocalError` on the pattern line when the match
list is empty) instead of returning display lines. -/
theorem c10_caret_total_iff_line_and_matches (bl : BadLineM) :
    (((caretUnderMatches bl).toBool = true) ↔
      ((∃ l, bl.line = some l) ∧ ∃ m ms, bl.reMatches = some (m :: ms))) ∧
    (((badLinePrint bl).toBool = true) ↔
      ((∃ l, bl.line = some l) ∧ ∃ m ms, bl.reMatches = some (m :: ms))) ∧
    ∀ p, (caretUnderMatches (mkDecodeErrorBadLine p)).toBool = false := by
  obtain ⟨line, lineNo, reMatches, patSrc⟩ := bl
  refine ⟨?_, ?_, fun p => rfl⟩ <;>
    (cases line with
     | none => simp [caretUnderMatches, badLinePrint, Except.toBool, Except.map]
     | some l =>
       cases reMatches with
       | none => simp [caretUnderMatches, badLinePrint, Except.toBool, Except.map]
       | some ms =>
         cases ms with
         | nil => simp [caretUnderMatches, badLinePrint, Except.toBool, Except.map]
         | cons m ms =>
           simp [caretUnderMatches, badLinePrint, Except.toBool, Except.map])

end TrzPyUtils
